import Mathlib

/-!
Shallow embedding of `src/docling/backend/msword_backend.py`
(`MsWordDocumentBackend`): the linear-to-hierarchical tree builder for
word-processing documents.  Python dictionaries become insertion-ordered
association lists, node handles become natural-number identifiers issued by
a `Doc` value, machine behaviour that raises (KeyError, AttributeError,
TypeError, AssertionError, IndexError) is modelled with `Except String`.
The element stream is taken at the interface exposed by the external
container reader: style name, raw text, numbering id / indent level for
paragraphs, and the per-row cell records (text, vMerge attribute, gridSpan
attribute) for tables.
-/

/-- Decidable equality for `Except`, used to evaluate concrete runs. -/
instance {ε α : Type} [DecidableEq ε] [DecidableEq α] :
    DecidableEq (Except ε α) := fun a b =>
  match a, b with
  | .ok x, .ok y =>
    if h : x = y then isTrue (by rw [h]) else isFalse (by intro hc; cases hc; exact h rfl)
  | .error x, .error y =>
    if h : x = y then isTrue (by rw [h]) else isFalse (by intro hc; cases hc; exact h rfl)
  | .ok _, .error _ => isFalse (by intro hc; cases hc)
  | .error _, .ok _ => isFalse (by intro hc; cases hc)

/-- Node labels used by the document-model calls in the backend
(`DocItemLabel.TITLE/PARAGRAPH/LIST_ITEM`, `add_heading`,
`GroupLabel.SECTION/LIST`, `add_table`, `add_picture`). -/
inductive NodeLabel where
  | title
  | paragraph
  | listItem
  | sectionHeader
  | groupSection
  | groupList
  | table
  | picture
deriving DecidableEq

/-- Input cell of a table row, as decoded from the container: cell text,
the `w:vMerge` attribute value when present, and the `w:gridSpan`
attribute value when present. -/
structure CellIn where
  text : String
  vMerge : Option String
  gridSpan : Option Int
deriving DecidableEq

/-- Reconstructed table cell, mirroring the `TableCell(...)` constructor
call in `add_table` (lines 358-368).  `row_span` is an `Int` because the
constructor is only ever reached when `get_rowspan` returned the integer 1;
any string-valued `vMerge` raises a TypeError first. -/
structure TCell where
  text : String
  row_span : Int
  col_span : Int
  start_row_offset_idx : Int
  end_row_offset_idx : Int
  start_col_offset_idx : Int
  end_col_offset_idx : Int
  col_header : Bool
  row_header : Bool
deriving DecidableEq

/-- One node created through the external tree API.  `id` is the opaque
handle, `parent` the handle passed as the `parent=` argument, `cells` the
table payload for `add_table` nodes (empty otherwise). -/
structure DocItem where
  id : Nat
  parent : Option Nat
  label : NodeLabel
  text : String
  cells : List TCell := []
deriving DecidableEq

/-- The external `DoclingDocument`: list of created nodes in call order,
plus the next fresh handle. -/
structure Doc where
  items : List DocItem
  nextId : Nat
deriving DecidableEq

/-- One node-creation call (`doc.add_text` / `add_heading` / `add_group` /
`add_table` / `add_picture`): appends a node and returns its handle. -/
def Doc.addNode (doc : Doc) (parent : Option Nat) (label : NodeLabel)
    (text : String) (cells : List TCell := []) : Doc × Nat :=
  ({ items :=
      doc.items ++ [{ id := doc.nextId, parent := parent, label := label,
                      text := text, cells := cells }],
     nextId := doc.nextId + 1 }, doc.nextId)

/-- Insertion-ordered dictionary with `Int` keys and optional-node values,
modelling `self.parents` (a Python `dict`). -/
abbrev PDict := List (Int × Option Nat)

/-- Python `d[k]` read: `some v` when the key is present (`v` is the stored
optional node), `none` when the read would raise KeyError. -/
def dictGet (d : PDict) (k : Int) : Option (Option Nat) :=
  match d.find? (fun p => p.1 == k) with
  | some p => some p.2
  | none => none

/-- Python `d[k] = v` write: updates the key in place when present,
otherwise appends it (Python dicts keep insertion order). -/
def dictSet (d : PDict) (k : Int) (v : Option Nat) : PDict :=
  if d.any (fun p => p.1 == k) then
    d.map (fun p => if p.1 == k then (k, v) else p)
  else d ++ [(k, v)]

/-- Conversion state of `MsWordDocumentBackend` (`__init__`, lines 27-47):
the `parents` level tracker, `level_at_new_list`, the `level` attribute
(absent until first assigned, modelled as `Option`), the four
ever-growing history lists (each initialised to `[None]`), and the
document being built. -/
structure BState where
  parents : PDict
  level_at_new_list : Option Int
  level : Option Int
  hist_names : List (Option String)
  hist_levels : List (Option Int)
  hist_numids : List (Option Int)
  hist_indents : List (Option Int)
  doc : Doc
deriving DecidableEq

/-- Initial `self.parents`: keys `-1` to `9` (`max_levels = 10`), all unset. -/
def initParents : PDict :=
  (List.range 11).map (fun i => ((i : Int) - 1, (none : Option Nat)))

/-- Backend state straight after `__init__`. -/
def initState : BState :=
  { parents := initParents
    level_at_new_list := none
    level := none
    hist_names := [none]
    hist_levels := [none]
    hist_numids := [none]
    hist_indents := [none]
    doc := { items := [], nextId := 0 } }

/-- `update_history` (lines 64-69): appends one descriptor to each of the
four history lists. -/
def update_history (st : BState) (name : Option String) (level : Option Int)
    (numid : Option Int) (ilevel : Option Int) : BState :=
  { st with
    hist_names := st.hist_names ++ [name]
    hist_levels := st.hist_levels ++ [level]
    hist_numids := st.hist_numids ++ [numid]
    hist_indents := st.hist_indents ++ [ilevel] }

/-- `prev_name` (line 71-72): last entry of the names history. -/
def prev_name (st : BState) : Option String := st.hist_names.getLastD none

/-- `prev_level` (line 74-75). -/
def prev_level (st : BState) : Option Int := st.hist_levels.getLastD none

/-- `prev_numid` (line 77-78). -/
def prev_numid (st : BState) : Option Int := st.hist_numids.getLastD none

/-- `prev_indent` (line 80-81). -/
def prev_indent (st : BState) : Option Int := st.hist_indents.getLastD none

/-- `get_level` (lines 83-88): first key `k >= 0` whose slot is `None`,
in dictionary (insertion) order; `0` when all slots are set. -/
def get_level : PDict → Int
  | [] => 0
  | (k, v) :: rest => if 0 ≤ k ∧ v = none then k else get_level rest

/-- Character-level model of Python `str.split(sep)` for a one-character
separator: `"a:b".split(":") = ["a", "b"]`, `":".split(":") = ["", ""]`. -/
def splitOnChar (sep : Char) : List Char → List (List Char)
  | [] => [[]]
  | c :: cs =>
    let rest := splitOnChar sep cs
    if c == sep then [] :: rest
    else
      match rest with
      | [] => [[c]]
      | r :: rs => (c :: r) :: rs

/-- Whether `pat` occurs at the head of `cs`. -/
def startsWithSeq : List Char → List Char → Bool
  | [], _ => true
  | _ :: _, [] => false
  | p :: ps, c :: cs => p == c && startsWithSeq ps cs

/-- Python `pat in s` substring containment on character lists. -/
def containsSeq (pat : List Char) : List Char → Bool
  | [] => startsWithSeq pat []
  | c :: cs => startsWithSeq pat (c :: cs) || containsSeq pat cs

/-- Decimal digit value. -/
def digitVal (c : Char) : Option Nat :=
  if 48 ≤ c.toNat ∧ c.toNat ≤ 57 then some (c.toNat - 48) else none

/-- Accumulate a decimal numeral; `none` on any non-digit. -/
def digitsToNat (acc : Nat) : List Char → Option Nat
  | [] => some acc
  | c :: cs =>
    match digitVal c with
    | none => none
    | some d => digitsToNat (acc * 10 + d) cs

/-- Model of Python `int(str)`: strip spaces, optional sign, then a
non-empty run of decimal digits; `none` models the ValueError. -/
def parseIntPy (s : List Char) : Option Int :=
  let t := ((s.dropWhile (fun c => c == ' ')).reverse.dropWhile
    (fun c => c == ' ')).reverse
  match t with
  | [] => none
  | '-' :: rest =>
    match rest with
    | [] => none
    | _ => (digitsToNat 0 rest).map (fun n => -(n : Int))
  | '+' :: rest =>
    match rest with
    | [] => none
    | _ => (digitsToNat 0 rest).map (fun n => (n : Int))
  | _ => (digitsToNat 0 t).map (fun n => (n : Int))

/-- Python whitespace for `str.strip()`. -/
def isPySpace (c : Char) : Bool :=
  c == ' ' || c == '\t' || c == '\n' || c == '\r'

/-- Python `str.strip()`. -/
def pyStrip (s : String) : String :=
  (((s.toList.dropWhile isPySpace).reverse.dropWhile isPySpace).reverse).asString

/-- `get_label_and_level` (lines 128-143): `None` style maps to
`("Normal", None)`; a `name:level` colon form; else a two-token
`Heading N` space form; else the verbatim name with no level.  A
non-numeric level token raises ValueError via `int(...)`. -/
def get_label_and_level (style : Option String) :
    Except String (String × Option Int) :=
  match style with
  | none => .ok ("Normal", none)
  | some label =>
    let chars := label.toList
    let cparts := splitOnChar ':' chars
    let sparts := splitOnChar ' ' chars
    let spaceLogic : Except String (String × Option Int) :=
      if containsSeq ("Heading".toList) chars ∧ sparts.length = 2 then
        match parseIntPy (sparts.getD 1 []) with
        | none => .error "ValueError: invalid literal for int"
        | some n => .ok ((sparts.getD 0 []).asString, some n)
      else .ok (label, none)
    if 2 ≤ cparts.length then
      if cparts.length = 2 then
        match parseIntPy (cparts.getD 1 []) with
        | none => .error "ValueError: invalid literal for int"
        | some n => .ok ((cparts.getD 0 []).asString, some n)
      else spaceLogic
    else spaceLogic

/-- Known paragraph styles accepted by `add_text` (lines 190-199). -/
def knownStyles : List String :=
  ["Paragraph", "Normal", "Subtitle", "Author", "Default Text",
   "List Paragraph", "List Bullet", "Quote"]

/-- Close-list block of `add_text` (lines 169-176): clear every tracker
slot with key `>= self.level_at_new_list`, set `self.level` to
`level_at_new_list - 1`, reset `level_at_new_list` to `None`.  When
`level_at_new_list` is `None` the Python comparison `key >= None` raises
TypeError. -/
def closeListBranch (st : BState) : Except String BState :=
  match st.level_at_new_list with
  | none => .error "TypeError: comparison of int and NoneType"
  | some lanl =>
    .ok { st with
      parents := st.parents.map (fun p => if lanl ≤ p.1 then (p.1, none) else p)
      level := some (lanl - 1)
      level_at_new_list := none }

/-- Loop body of the `curr_level > level` branch of `add_header`
(lines 226-231): starting at slot `i`, create `n` anonymous section groups,
each under the node at the previous slot, assigning slot `i` then `i+1`
and so on. -/
def addGroupChain (parents : PDict) (doc : Doc) (i : Int) :
    Nat → Except String (PDict × Doc)
  | 0 => .ok (parents, doc)
  | Nat.succ m =>
    match dictGet parents (i - 1) with
    | none => .error "KeyError"
    | some p =>
      let pr := doc.addNode p NodeLabel.groupSection
        (String.append "header-" (toString i))
      addGroupChain (dictSet parents i (some pr.2)) pr.1 (i + 1) m

/-- `add_header` (lines 210-251).  With a numeric level: equal levels
replace the slot, deeper levels bridge with anonymous section groups,
shallower levels prune the tail first.  With no numeric level the code
reads the `self.level` attribute (assigned only by the close-list branch);
reading it before any assignment raises AttributeError. -/
def add_header (st : BState) (curr_name : String) (curr_level : Option Int)
    (text : String) : Except String BState :=
  let level := get_level st.parents
  match curr_level with
  | some curr =>
    if curr = level then
      match dictGet st.parents (level - 1) with
      | none => .error "KeyError"
      | some p =>
        let pr := st.doc.addNode p NodeLabel.sectionHeader text
        .ok { st with parents := dictSet st.parents level (some pr.2)
                      doc := pr.1 }
    else if level < curr then
      match addGroupChain st.parents st.doc level (curr - level).toNat with
      | .error e => .error e
      | .ok (parents1, doc1) =>
        match dictGet parents1 (curr - 1) with
        | none => .error "KeyError"
        | some p =>
          let pr := doc1.addNode p NodeLabel.sectionHeader text
          .ok { st with parents := dictSet parents1 curr (some pr.2)
                        doc := pr.1 }
    else
      let parents1 := st.parents.map
        (fun p => if curr ≤ p.1 then (p.1, none) else p)
      match dictGet parents1 (curr - 1) with
      | none => .error "KeyError"
      | some p =>
        let pr := st.doc.addNode p NodeLabel.sectionHeader text
        .ok { st with parents := dictSet parents1 curr (some pr.2)
                      doc := pr.1 }
  | none =>
    match st.level with
    | none => .error "AttributeError: self.level is not set"
    | some l =>
      match dictGet st.parents (l - 1) with
      | none => .error "KeyError"
      | some p =>
        let pr := st.doc.addNode p NodeLabel.sectionHeader text
        .ok { st with parents := dictSet st.parents l (some pr.2)
                      doc := pr.1 }

/-- Loop body of the `Open indented list` branch of `add_listitem`
(lines 276-282): nested list groups at slots `i`, `i+1`, ... -/
def addListGroupChain (parents : PDict) (doc : Doc) (i : Int) :
    Nat → Except String (PDict × Doc)
  | 0 => .ok (parents, doc)
  | Nat.succ m =>
    match dictGet parents (i - 1) with
    | none => .error "KeyError"
    | some p =>
      let pr := doc.addNode p NodeLabel.groupList "list"
      addListGroupChain (dictSet parents i (some pr.2)) pr.1 (i + 1) m

/-- `add_listitem` (lines 253-306).  Branch order as in the source:
open a new list when the previous element had no numbering id; deepen when
the numbering id matches and the indent grew; close partially when the
indent shrank; continue when the numbering id matches at equal indent or,
crucially, when the numbering id changed but the indent is unchanged
(`prev_numid() == numid or prev_indent() == ilevel`).  When no branch
matches the function falls through and produces nothing.  Python
short-circuit evaluation means `prev_indent() < ilevel` is only evaluated
after `prev_numid() == numid`; a `None` previous indent there would raise
TypeError, as would `level_at_new_list + ...` with a `None` value. -/
def add_listitem (st : BState) (pname : String) (plevel : Option Int)
    (numid : Int) (ilevel : Int) (text : String) : Except String BState :=
  let level := get_level st.parents
  match prev_numid st with
  | none =>
    match dictGet st.parents (level - 1) with
    | none => .error "KeyError"
    | some p =>
      let pr := st.doc.addNode p NodeLabel.groupList "list"
      let pr2 := pr.1.addNode (some pr.2) NodeLabel.listItem text
      .ok { st with level_at_new_list := some level
                    parents := dictSet st.parents level (some pr.2)
                    doc := pr2.1 }
  | some pnum =>
    if pnum = numid then
      match prev_indent st with
      | none => .error "TypeError: comparison of NoneType and int"
      | some pind =>
        if pind < ilevel then
          match st.level_at_new_list with
          | none => .error "TypeError: NoneType plus int"
          | some lanl =>
            match addListGroupChain st.parents st.doc (lanl + pind + 1)
                ((lanl + ilevel + 1) - (lanl + pind + 1)).toNat with
            | .error e => .error e
            | .ok (parents1, doc1) =>
              match dictGet parents1 (lanl + ilevel) with
              | none => .error "KeyError"
              | some p =>
                let pr := doc1.addNode p NodeLabel.listItem text
                .ok { st with parents := parents1, doc := pr.1 }
        else if ilevel < pind then
          match st.level_at_new_list with
          | none => .error "TypeError: NoneType plus int"
          | some lanl =>
            let parents1 := st.parents.map
              (fun q => if lanl + ilevel < q.1 then (q.1, none) else q)
            match dictGet parents1 (lanl + ilevel) with
            | none => .error "KeyError"
            | some p =>
              let pr := st.doc.addNode p NodeLabel.listItem text
              .ok { st with parents := parents1, doc := pr.1 }
        else
          match dictGet st.parents (level - 1) with
          | none => .error "KeyError"
          | some p =>
            let pr := st.doc.addNode p NodeLabel.listItem text
            .ok { st with doc := pr.1 }
    else
      if prev_indent st = some ilevel then
        match dictGet st.parents (level - 1) with
        | none => .error "KeyError"
        | some p =>
          let pr := st.doc.addNode p NodeLabel.listItem text
          .ok { st with doc := pr.1 }
      else .ok st

/-- Style-name dispatch of `add_text` (lines 178-206): `Title` reseeds the
tracker, a name containing `Heading` goes to `add_header`, the known
paragraph styles become plain paragraphs under the current open level, and
anything else hits `assert False`. -/
def dispatch_pname (st : BState) (pname : String) (plevel : Option Int)
    (text : String) : Except String BState :=
  if pname = "Title" then
    let parents1 := st.parents.map (fun p => (p.1, (none : Option Nat)))
    let pr := st.doc.addNode none NodeLabel.title text
    .ok { st with parents := dictSet parents1 0 (some pr.2), doc := pr.1 }
  else if containsSeq ("Heading".toList) pname.toList then
    add_header st pname plevel text
  else if knownStyles.contains pname then
    let level := get_level st.parents
    match dictGet st.parents (level - 1) with
    | none => .error "KeyError"
    | some p =>
      let pr := st.doc.addNode p NodeLabel.paragraph text
      .ok { st with doc := pr.1 }
  else
    .error (String.append "AssertionError: need to add a new paragraph: " pname)

/-- `add_text` (lines 145-208): early return on `None` text; strip; derive
label and level; list items go to `add_listitem`; otherwise run the
close-list block when a list just ended, then dispatch on the style name;
history is updated after either path. -/
def add_text (st : BState) (style : Option String) (ptext : Option String)
    (numid : Option Int) (ilevel : Option Int) : Except String BState :=
  match ptext with
  | none => .ok st
  | some rawText =>
    let text := pyStrip rawText
    match get_label_and_level style with
    | .error e => .error e
    | .ok (pname, plevel) =>
      match numid, ilevel with
      | some nid, some il =>
        match add_listitem st pname plevel nid il text with
        | .error e => .error e
        | .ok st2 => .ok (update_history st2 (some pname) plevel numid ilevel)
      | _, _ =>
        match (if numid = none ∧ prev_numid st ≠ none
               then closeListBranch st else .ok st) with
        | .error e => .error e
        | .ok st1 =>
          match dispatch_pname st1 pname plevel text with
          | .error e => .error e
          | .ok st2 => .ok (update_history st2 (some pname) plevel numid ilevel)

/-- `get_colspan` (lines 311-315): the `gridSpan` attribute, defaulting
to 1. -/
def get_colspan (c : CellIn) : Int := c.gridSpan.getD 1

/-- Sum of declared column spans over one row
(`sum(get_colspan(cell) for cell in row.cells)`, line 332). -/
def rowColspanSum : List CellIn → Int
  | [] => 0
  | c :: cs => get_colspan c + rowColspanSum cs

/-- `num_cols` (lines 329-332): maximum over rows of the per-row span sum,
starting from 0. -/
def numColsOf : List (List CellIn) → Int
  | [] => 0
  | r :: rs => max (numColsOf rs) (rowColspanSum r)

/-- The `while table_grid[row_idx][col_idx] is not None: col_idx += 1`
cursor advance (lines 348-349), with explicit fuel (any fuel of at least
`row.length + 1 - c` gives the Python behaviour; an out-of-range read is
IndexError). -/
def advanceCol (row : List (Option String)) : Nat → Nat → Except String Nat
  | _, 0 => .error "fuel exhausted"
  | c, fuel + 1 =>
    match row[c]? with
    | none => .error "IndexError: list index out of range"
    | some none => .ok c
    | some (some _) => advanceCol row (c + 1) fuel

/-- One grid write `table_grid[r][c] = ""` with Python IndexError on an
out-of-range index. -/
def setSlot (g : List (List (Option String))) (r c : Nat) :
    Except String (List (List (Option String))) :=
  match g[r]? with
  | none => .error "IndexError: list index out of range"
  | some row =>
    if c < row.length then .ok (g.set r (row.set c (some "")))
    else .error "IndexError: list index out of range"

/-- Inner `for j in range(col_span)` fill (lines 355-356), marking
`n` consecutive slots of row `r` starting at column `c`. -/
def fillSlots (g : List (List (Option String))) (r c : Nat) :
    Nat → Except String (List (List (Option String)))
  | 0 => .ok g
  | n + 1 =>
    match setSlot g r c with
    | .error e => .error e
    | .ok g2 => fillSlots g2 r (c + 1) n

/-- Per-cell loop of `add_table` (lines 343-371).  `row_span` is the
`vMerge` attribute: the value `"restart"` reaches
`range(row_span if row_span == "restart" else 1)` and raises TypeError
(`range` of a string); any other string survives the fill but raises
TypeError at `row_idx + row_span`.  Without `vMerge` the cell fills
`col_span` slots of the current row after skipping occupied slots, and one
`TableCell` is emitted recording its offset rectangle. -/
def processCells (g : List (List (Option String))) (acc : List TCell)
    (rowIdx : Nat) (colIdx : Nat) :
    List CellIn → Except String (List (List (Option String)) × List TCell)
  | [] => .ok (g, acc)
  | cell :: rest =>
    match g[rowIdx]? with
    | none => .error "IndexError: list index out of range"
    | some grow =>
      match advanceCol grow colIdx (grow.length + 1) with
      | .error e => .error e
      | .ok c2 =>
        match cell.vMerge with
        | some s =>
          if s = "restart" then
            .error "TypeError: str object cannot be interpreted as an integer"
          else
            match fillSlots g rowIdx c2 (get_colspan cell).toNat with
            | .error e => .error e
            | .ok _ =>
              .error "TypeError: unsupported operand types int and str"
        | none =>
          match fillSlots g rowIdx c2 (get_colspan cell).toNat with
          | .error e => .error e
          | .ok g2 =>
            let tc : TCell :=
              { text := cell.text
                row_span := 1
                col_span := get_colspan cell
                start_row_offset_idx := (rowIdx : Int)
                end_row_offset_idx := (rowIdx : Int) + 1
                start_col_offset_idx := (c2 : Int)
                end_col_offset_idx := (c2 : Int) + get_colspan cell
                col_header := false
                row_header := false }
            processCells g2 (acc ++ [tc]) rowIdx c2 rest

/-- Outer `for row_idx, row in enumerate(table.rows)` loop (lines
341-371): the column cursor restarts at 0 on each row. -/
def processRows (g : List (List (Option String))) (acc : List TCell)
    (rowIdx : Nat) :
    List (List CellIn) → Except String (List (List (Option String)) × List TCell)
  | [] => .ok (g, acc)
  | row :: rest =>
    match processCells g acc rowIdx 0 row with
    | .error e => .error e
    | .ok (g2, acc2) => processRows g2 acc2 (rowIdx + 1) rest

/-- `table_grid = [[None ...] ...]` (line 337). -/
def initGrid (t : List (List CellIn)) : List (List (Option String)) :=
  List.replicate t.length (List.replicate (numColsOf t).toNat none)

/-- `add_table` (lines 308-374): build the occupancy grid and the list of
reconstructed cells, then attach one table node under the current open
level.  History is not updated and the list context is not closed. -/
def add_table (st : BState) (t : List (List CellIn)) : Except String BState :=
  match processRows (initGrid t) [] 0 t with
  | .error e => .error e
  | .ok (_, cells) =>
    let level := get_level st.parents
    match dictGet st.parents (level - 1) with
    | none => .error "KeyError"
    | some p =>
      let pr := st.doc.addNode p NodeLabel.table "" cells
      .ok { st with doc := pr.1 }

/-- `add_figure` (lines 376-379): one picture node under
`self.parents[self.level]`; reading `self.level` before its only
assignment (the close-list branch) raises AttributeError.  History is not
updated. -/
def add_figure (st : BState) : Except String BState :=
  match st.level with
  | none => .error "AttributeError: self.level is not set"
  | some l =>
    match dictGet st.parents l with
    | none => .error "KeyError"
    | some p =>
      let pr := st.doc.addNode p NodeLabel.picture ""
      .ok { st with doc := pr.1 }

/-- One block element of the body stream, at the interface the container
reader exposes: paragraphs carry style, raw text and extracted
numbering-id / indent-level; tables carry their row-by-row cells; any
other tag is warned about and skipped. -/
inductive Element where
  | para (style : Option String) (ptext : Option String)
      (numid : Option Int) (ilevel : Option Int)
  | table (rows : List (List CellIn))
  | figure
  | other (tag : String)
deriving DecidableEq

/-- Dispatch of `walk_linear` (lines 94-108) for one element. -/
def stepElement (st : BState) : Element → Except String BState
  | .para style ptext numid ilevel => add_text st style ptext numid ilevel
  | .table rows => add_table st rows
  | .figure => add_figure st
  | .other _ => .ok st

/-- `walk_linear` (lines 94-108): process the body elements in order. -/
def walk_linear (st : BState) : List Element → Except String BState
  | [] => .ok st
  | e :: rest =>
    match stepElement st e with
    | .error err => .error err
    | .ok st2 => walk_linear st2 rest

/-- Projection used by several concrete runs: the `(id, parent, label,
text)` rows of the produced document, when the run succeeded. -/
def itemsTable (r : Except String BState) :
    Option (List (Nat × Option Nat × NodeLabel × String)) :=
  r.toOption.map (fun st => st.doc.items.map
    (fun it => (it.id, it.parent, it.label, it.text)))

/-- Whether a reconstructed cell occupies grid slot `(r, c)`: the slot lies
in its recorded offset rectangle. -/
def cellCovers (tc : TCell) (r c : Int) : Bool :=
  tc.start_row_offset_idx ≤ r && r < tc.end_row_offset_idx &&
  tc.start_col_offset_idx ≤ c && c < tc.end_col_offset_idx

/-- A grid row whose first `f` slots are filled and whose remaining
`W - f` slots are free. -/
def prefixRow (f W : Nat) : List (Option String) :=
  List.replicate f (some "") ++ List.replicate (W - f) none

/-- The cells `add_table` emits for one vMerge-free row starting with the
fill boundary at column `f`: consecutive rectangles of the declared
column spans. -/
def mkCells (r f : Nat) : List CellIn → List TCell
  | [] => []
  | c :: cs =>
    { text := c.text
      row_span := 1
      col_span := get_colspan c
      start_row_offset_idx := (r : Int)
      end_row_offset_idx := (r : Int) + 1
      start_col_offset_idx := (f : Int)
      end_col_offset_idx := (f : Int) + get_colspan c
      col_header := false
      row_header := false } :: mkCells r (f + (get_colspan c).toNat) cs

/-- The cells `add_table` emits for a vMerge-free table, row by row. -/
def mkAllCells (r : Nat) : List (List CellIn) → List TCell
  | [] => []
  | row :: rest => mkCells r 0 row ++ mkAllCells (r + 1) rest

/-- The items `its` form a parent chain starting at `p`: the first item
hangs under `p` and each further item hangs under the one before it. -/
def chainedFrom : Option Nat → List DocItem → Prop
  | _, [] => True
  | p, it :: rest => it.parent = p ∧ chainedFrom (some it.id) rest

theorem getLastD_append_one {α : Type} (xs : List α) (x : α) :
    ∀ d, (xs ++ [x]).getLastD d = x := by
  induction xs with
  | nil => intro d; rfl
  | cons a as ih =>
    intro d
    rw [List.cons_append, List.getLastD_cons]
    exact ih a

theorem find_append_none {α : Type} (p : α → Bool) (l1 l2 : List α)
    (h : l1.find? p = none) : (l1 ++ l2).find? p = l2.find? p := by
  induction l1 with
  | nil => rfl
  | cons a as ih =>
    by_cases ha : p a = true
    · rw [List.find?_cons_of_pos _ ha] at h; cases h
    · rw [List.find?_cons_of_neg _ ha] at h
      rw [List.cons_append, List.find?_cons_of_neg _ ha]
      exact ih h

theorem find_map_set (d : PDict) (k : Int) (v : Option Nat)
    (h : d.any (fun p => p.1 == k) = true) :
    (d.map (fun p => if p.1 == k then (k, v) else p)).find?
      (fun p => p.1 == k) = some (k, v) := by
  induction d with
  | nil => simp at h
  | cons a as ih =>
    rw [List.map_cons]
    by_cases hk : a.1 = k
    · rw [if_pos (by simp [hk])]
      exact List.find?_cons_of_pos _ (by simp)
    · have hk2 : (a.1 == k) = false := by simp [hk]
      have h2 : as.any (fun p => p.1 == k) = true := by
        simpa [List.any_cons, hk2] using h
      rw [if_neg (by simp [hk])]
      rw [List.find?_cons_of_neg _ (by simp [hk])]
      exact ih h2

theorem dictGet_dictSet_self (d : PDict) (k : Int) (v : Option Nat) :
    dictGet (dictSet d k v) k = some v := by
  unfold dictGet dictSet
  by_cases h : d.any (fun p => p.1 == k) = true
  · rw [if_pos h, find_map_set d k v h]
  · rw [if_neg h]
    have hall : ∀ p ∈ d, ¬ ((fun (p : Int × Option Nat) => p.1 == k) p = true) := by
      intro p hp hpk
      exact h (List.any_eq_true.mpr ⟨p, hp, hpk⟩)
    have hnone : d.find? (fun p => p.1 == k) = none := List.find?_eq_none.mpr hall
    rw [find_append_none _ _ _ hnone]
    simp [List.find?]

theorem find_append_some {α : Type} (p : α → Bool) (l1 l2 : List α)
    (x : α) (h : l1.find? p = some x) : (l1 ++ l2).find? p = some x := by
  induction l1 with
  | nil => cases h
  | cons a as ih =>
    by_cases ha : p a = true
    · rw [List.find?_cons_of_pos _ ha] at h
      rw [List.cons_append, List.find?_cons_of_pos _ ha]
      exact h
    · rw [List.find?_cons_of_neg _ ha] at h
      rw [List.cons_append, List.find?_cons_of_neg _ ha]
      exact ih h

theorem find_map_set_ne (d : PDict) (k k2 : Int) (v : Option Nat)
    (hne : k ≠ k2) :
    (d.map (fun p => if p.1 == k then (k, v) else p)).find?
      (fun p => p.1 == k2) = d.find? (fun p => p.1 == k2) := by
  induction d with
  | nil => rfl
  | cons a as ih =>
    rw [List.map_cons]
    by_cases hk : a.1 = k
    · rw [if_pos (by simp [hk])]
      rw [List.find?_cons_of_neg (p := fun q => q.1 == k2) (a := (k, v)) _
        (by simp [hne])]
      rw [List.find?_cons_of_neg (p := fun q => q.1 == k2) (a := a) _
        (by simp only [hk]; simp [hne])]
      exact ih
    · rw [if_neg (by simp [hk])]
      by_cases hm : (a.1 == k2) = true
      · rw [List.find?_cons_of_pos (p := fun q => q.1 == k2) (a := a) _ hm,
          List.find?_cons_of_pos (p := fun q => q.1 == k2) (a := a) _ hm]
      · rw [List.find?_cons_of_neg (p := fun q => q.1 == k2) (a := a) _ hm,
          List.find?_cons_of_neg (p := fun q => q.1 == k2) (a := a) _ hm]
        exact ih

theorem dictGet_dictSet_ne (d : PDict) (k k2 : Int) (v : Option Nat)
    (hne : k ≠ k2) :
    dictGet (dictSet d k v) k2 = dictGet d k2 := by
  unfold dictGet dictSet
  by_cases h : d.any (fun p => p.1 == k) = true
  · rw [if_pos h, find_map_set_ne d k k2 v hne]
  · rw [if_neg h]
    cases hfind : d.find? (fun p => p.1 == k2) with
    | some p => rw [find_append_some _ _ _ _ hfind]
    | none =>
      rw [find_append_none _ _ _ hfind]
      simp [List.find?, show (k == k2) = false by simp [hne]]

/-- C3: code bug.  A paragraph whose derived style name ("FancyQuote")
matches none of the recognized categories (not "Title", does not contain
"Heading", not in the known paragraph styles, no numbering metadata) makes
`add_text` hit `assert False, f"need to add a new paragraph: {pname}"`
(line 206): the conversion aborts with an AssertionError instead of the
recoverable warn-and-skip (or generic-paragraph fallback) that the claim
requires. -/
theorem C3_unknown_style_asserts :
    add_text initState (some "FancyQuote") (some "w") none none =
      Except.error "AssertionError: need to add a new paragraph: FancyQuote" := by
  decide

/-- C7: code bug.  A 1-row table whose single cell starts a vertical merge
(`vMerge="restart"`, so its continuation would extend past the row count)
is not clipped: `range(row_span if row_span == "restart" else 1)` at line
354 calls `range` on the string "restart" and raises TypeError, so no
table is emitted and processing of the table fails. -/
theorem C7_vmerge_restart_fails :
    add_table initState [[⟨"a", some "restart", none⟩]] =
      Except.error "TypeError: str object cannot be interpreted as an integer" := by
  decide

/-- C7 companion fact: a vertical-merge continuation cell
(`vMerge="continue"`) also fails, at `row_idx + row_span` with a string
`row_span`, instead of being clipped into the grid. -/
theorem C7_vmerge_continue_fails :
    add_table initState [[⟨"a", some "continue", none⟩]] =
      Except.error "TypeError: unsupported operand types int and str" := by
  decide

/-- C9: counterexample.  The previous-element record is kept in four
history lists that `update_history` only ever appends to: after one
processed paragraph the names list has 2 entries, after two it has 3 — the
record grows with the number of elements processed, so it is not a
fixed-size depth-1 record as claimed. -/
theorem C9_counterexample :
    (walk_linear initState
      [Element.para (some "Normal") (some "a") none none]).toOption.map
        (fun st => st.hist_names.length) = some 2 ∧
    (walk_linear initState
      [Element.para (some "Normal") (some "a") none none,
       Element.para (some "Normal") (some "b") none none]).toOption.map
        (fun st => st.hist_names.length) = some 3 ∧
    (3 : Nat) ≠ 2 := by
  exact ⟨by decide, by decide, by decide⟩

/-- C9: amended claim.  `update_history` appends exactly one descriptor
entry `(name, level, numid, ilevel)` to each of the four history lists
(which therefore grow by one per processed element), and the four
`prev_*` accessors read back exactly the entry appended last, so the
observable history used by the transition logic is depth-1 even though the
storage is a growing log. -/
theorem C9_history_depth1_amended (st : BState) (name : Option String)
    (level numid ilevel : Option Int) :
    prev_name (update_history st name level numid ilevel) = name ∧
    prev_level (update_history st name level numid ilevel) = level ∧
    prev_numid (update_history st name level numid ilevel) = numid ∧
    prev_indent (update_history st name level numid ilevel) = ilevel ∧
    (update_history st name level numid ilevel).hist_names.length
      = st.hist_names.length + 1 ∧
    (update_history st name level numid ilevel).hist_levels.length
      = st.hist_levels.length + 1 ∧
    (update_history st name level numid ilevel).hist_numids.length
      = st.hist_numids.length + 1 ∧
    (update_history st name level numid ilevel).hist_indents.length
      = st.hist_indents.length + 1 := by
  refine ⟨?_, ?_, ?_, ?_, ?_, ?_, ?_, ?_⟩ <;>
    simp [update_history, prev_name, prev_level, prev_numid, prev_indent,
      getLastD_append_one]

/-- C1: counterexample.  For the 2-row table whose first row has one
unit-span cell and whose second row has two, the computed grid is 2 x 2
but the three emitted cells occupy only the slots (0,0), (1,0), (1,1): the
in-grid slot (0,1) is covered by no emitted cell, so the union of occupied
slots is not the full rows x cols rectangle. -/
theorem C1_counterexample :
    (processRows (initGrid [[⟨"a", none, none⟩],
        [⟨"b", none, none⟩, ⟨"c", none, none⟩]]) [] 0
      [[⟨"a", none, none⟩], [⟨"b", none, none⟩, ⟨"c", none, none⟩]]).toOption.map
        (fun pr => pr.2.map (fun tc => (tc.start_row_offset_idx,
          tc.end_row_offset_idx, tc.start_col_offset_idx,
          tc.end_col_offset_idx))) =
      some [(0, 1, 0, 1), (1, 2, 0, 1), (1, 2, 1, 2)] ∧
    (processRows (initGrid [[⟨"a", none, none⟩],
        [⟨"b", none, none⟩, ⟨"c", none, none⟩]]) [] 0
      [[⟨"a", none, none⟩], [⟨"b", none, none⟩, ⟨"c", none, none⟩]]).toOption.map
        (fun pr => pr.2.any (fun tc => cellCovers tc 0 1)) = some false ∧
    ([[⟨"a", none, none⟩], [⟨"b", none, none⟩, ⟨"c", none, none⟩]]
      : List (List CellIn)).length = 2 ∧
    numColsOf [[⟨"a", none, none⟩], [⟨"b", none, none⟩, ⟨"c", none, none⟩]] = 2 := by
  exact ⟨by decide, by decide, by decide, by decide⟩

/-- C2: counterexample.  Stream of two list items with the same indent but
different numbering ids (num=5 then num=6).  The claim requires the second
item to start a brand-new list: a second list-group node and a newly
recorded base level (`get_level` is 1 at that point).  Instead the run
produces exactly one list-group node — the second item is attached as a
plain continuation under the existing group — and `level_at_new_list`
keeps its original value 0. -/
theorem C2_counterexample :
    itemsTable (walk_linear initState
      [Element.para (some "List Paragraph") (some "x") (some 5) (some 0),
       Element.para (some "List Paragraph") (some "y") (some 6) (some 0)]) =
      some [(0, none, NodeLabel.groupList, "list"),
            (1, some 0, NodeLabel.listItem, "x"),
            (2, some 0, NodeLabel.listItem, "y")] ∧
    (walk_linear initState
      [Element.para (some "List Paragraph") (some "x") (some 5) (some 0),
       Element.para (some "List Paragraph") (some "y") (some 6) (some 0)]).toOption.map
        (fun st => ((st.doc.items.filter
          (fun it => it.label == NodeLabel.groupList)).length,
          st.level_at_new_list)) = some (1, some 0) ∧
    (1 : Nat) ≠ 2 := by
  exact ⟨by decide, by decide, by decide⟩

/-- C4: counterexample.  A table is a non-list element (it has no
numbering id), yet when it follows a list item the close-list block does
not run: the table is dispatched to `add_table`, which neither clears the
tracker nor resets the context.  After the run, tracker slot 0 (the list's
recorded base level) still holds the list group, `level_at_new_list` is
still 0, and the table node was attached *inside* the list group (parent
node 0) rather than after a reset. -/
theorem C4_counterexample :
    itemsTable (walk_linear initState
      [Element.para (some "List Paragraph") (some "x") (some 5) (some 0),
       Element.table [[⟨"t", none, none⟩]]]) =
      some [(0, none, NodeLabel.groupList, "list"),
            (1, some 0, NodeLabel.listItem, "x"),
            (2, some 0, NodeLabel.table, "")] ∧
    (walk_linear initState
      [Element.para (some "List Paragraph") (some "x") (some 5) (some 0),
       Element.table [[⟨"t", none, none⟩]]]).toOption.map
        (fun st => (st.level_at_new_list, dictGet st.parents 0)) =
      some (some 0, some (some 0)) := by
  exact ⟨by decide, by decide⟩

/-- C6: counterexample.  After the stream Heading1 "A", list item, Normal
"z" (closes the list, setting `self.level := 1`), Heading1 "B": the
current open level (`get_level`) is 2, so the claim requires a heading
with no numeric level ("HeadingX" style) to be attached under
`parents[2-1]`, which holds node 5 (heading "B").  Instead `add_header`
uses the stale `self.level` attribute: the new heading (node 6) is
attached under node 0 (the section group), and tracker slot 1 is
reassigned from node 5 to node 6. -/
theorem C6_counterexample :
    (walk_linear initState
      [Element.para (some "Heading 1") (some "A") none none,
       Element.para (some "List Paragraph") (some "x") (some 5) (some 0),
       Element.para (some "Normal") (some "z") none none,
       Element.para (some "Heading 1") (some "B") none none]).toOption.map
        (fun st => (dictGet st.parents (get_level st.parents - 1),
          st.level)) = some (some (some 5), some 1) ∧
    itemsTable (walk_linear initState
      [Element.para (some "Heading 1") (some "A") none none,
       Element.para (some "List Paragraph") (some "x") (some 5) (some 0),
       Element.para (some "Normal") (some "z") none none,
       Element.para (some "Heading 1") (some "B") none none,
       Element.para (some "HeadingX") (some "C") none none]) =
      some [(0, none, NodeLabel.groupSection, "header-0"),
            (1, some 0, NodeLabel.sectionHeader, "A"),
            (2, some 1, NodeLabel.groupList, "list"),
            (3, some 2, NodeLabel.listItem, "x"),
            (4, some 1, NodeLabel.paragraph, "z"),
            (5, some 0, NodeLabel.sectionHeader, "B"),
            (6, some 0, NodeLabel.sectionHeader, "C")] ∧
    (some (0 : Nat) : Option Nat) ≠ some 5 := by
  exact ⟨by decide, by decide, by decide⟩

/-- C8: counterexample to the literal parent chain.  Running the claimed
stream, the inner list group (node 4, created by the deepen branch) has
parent node 2 — the *outer list group* — and not node 3, the ListItem
"x" that precedes it in the claimed chain
`... Group(list) -> ListItem("x") -> Group(list) -> ...`. -/
theorem C8_counterexample :
    (walk_linear initState
      [Element.para (some "Title") (some "Doc") none none,
       Element.para (some "Heading 1") (some "A") none none,
       Element.para (some "List Paragraph") (some "x") (some 5) (some 0),
       Element.para (some "List Paragraph") (some "y") (some 5) (some 1),
       Element.para (some "Normal") (some "z") none none]).toOption.map
        (fun st => (st.doc.items.map (fun it => (it.parent, it.label))).getD 4
          (none, NodeLabel.title)) =
      some (some 2, NodeLabel.groupList) ∧
    (walk_linear initState
      [Element.para (some "Title") (some "Doc") none none,
       Element.para (some "Heading 1") (some "A") none none,
       Element.para (some "List Paragraph") (some "x") (some 5) (some 0),
       Element.para (some "List Paragraph") (some "y") (some 5) (some 1),
       Element.para (some "Normal") (some "z") none none]).toOption.map
        (fun st => (st.doc.items.map (fun it => (it.id, it.label))).getD 3
          (0, NodeLabel.title)) =
      some (3, NodeLabel.listItem) ∧
    (some (2 : Nat) : Option Nat) ≠ some 3 := by
  exact ⟨by decide, by decide, by decide⟩

/-- C8: amended claim, proved on the full run.  The stream
`[Title "Doc", Heading1 "A", ListItem(5,0,"x"), ListItem(5,1,"y"),
Normal "z"]` yields Title(0) at the root; Heading "A"(1) under the Title;
a list group(2) under the heading; ListItem "x"(3) under that group; a
nested list group(4) under the *outer group* (a sibling of "x", not its
child); ListItem "y"(5) under the nested group; and the paragraph "z"(6)
attached directly under Heading "A" as a sibling of the outer list group,
because the list context closed before "z" was processed. -/
theorem C8_scenario_amended :
    itemsTable (walk_linear initState
      [Element.para (some "Title") (some "Doc") none none,
       Element.para (some "Heading 1") (some "A") none none,
       Element.para (some "List Paragraph") (some "x") (some 5) (some 0),
       Element.para (some "List Paragraph") (some "y") (some 5) (some 1),
       Element.para (some "Normal") (some "z") none none]) =
      some [(0, none, NodeLabel.title, "Doc"),
            (1, some 0, NodeLabel.sectionHeader, "A"),
            (2, some 1, NodeLabel.groupList, "list"),
            (3, some 2, NodeLabel.listItem, "x"),
            (4, some 2, NodeLabel.groupList, "list"),
            (5, some 4, NodeLabel.listItem, "y"),
            (6, some 1, NodeLabel.paragraph, "z")] := by
  decide

/-- C2: amended claim.  For every list item whose numbering id differs
from the previous element's numbering id while its indent level is
unchanged, `add_listitem` takes the *continuation* branch
(`prev_numid() == numid or prev_indent() == ilevel`, line 302): exactly
one list-item node is added under `parents[get_level() - 1]`, no new
list-group node is created, and `level_at_new_list` (the recorded base
level) is left untouched — not the brand-new-list Open transition the
claim describes. -/
theorem C2_changed_numid_continues (st : BState) (pname : String)
    (plevel : Option Int) (numid ilevel : Int) (text : String) (m : Int)
    (p : Option Nat)
    (hprev : prev_numid st = some m) (hne : m ≠ numid)
    (hind : prev_indent st = some ilevel)
    (hp : dictGet st.parents (get_level st.parents - 1) = some p) :
    add_listitem st pname plevel numid ilevel text =
      .ok { st with doc := (st.doc.addNode p NodeLabel.listItem text).1 } := by
  unfold add_listitem
  rw [hprev]
  simp only [if_neg hne, hind, if_pos rfl, hp]
  simp

/-- C2 witness: the continuation behaviour at a concrete state (previous
list item had numbering id 5, indent 0; the new item has numbering id 6,
indent 0). -/
theorem C2_changed_numid_continues_witness :
    prev_numid (update_history initState (some "List Paragraph") none
      (some 5) (some 0)) = some 5 ∧
    (5 : Int) ≠ 6 ∧
    prev_indent (update_history initState (some "List Paragraph") none
      (some 5) (some 0)) = some 0 ∧
    add_listitem (update_history initState (some "List Paragraph") none
      (some 5) (some 0)) "List Paragraph" none 6 0 "y" =
      .ok { (update_history initState (some "List Paragraph") none
              (some 5) (some 0)) with
            doc := ((update_history initState (some "List Paragraph") none
              (some 5) (some 0)).doc.addNode none NodeLabel.listItem "y").1 } :=
  ⟨by decide, by decide, by decide,
    C2_changed_numid_continues _ "List Paragraph" none 6 0 "y" 5 none
      (by decide) (by decide) (by decide) (by decide)⟩

/-- C6: amended claim.  A heading-styled element with no numeric level is
attached under `parents[self.level - 1]`, where `self.level` is the stale
value recorded by the last close-list block — not under the current open
level reported by `get_level` — and tracker slot `self.level` is
reassigned to the new heading node. -/
theorem C6_nonnumeric_uses_stale_level (st : BState) (curr_name text : String)
    (L : Int) (p : Option Nat)
    (hl : st.level = some L) (hp : dictGet st.parents (L - 1) = some p) :
    add_header st curr_name none text =
      .ok { st with
        parents := dictSet st.parents L (some st.doc.nextId)
        doc := (st.doc.addNode p NodeLabel.sectionHeader text).1 } := by
  unfold add_header
  rw [hl]
  simp only [hp, Doc.addNode]

/-- C6 witness: concrete instance with `self.level = 0` recorded. -/
theorem C6_nonnumeric_uses_stale_level_witness :
    ({ initState with level := some 0 } : BState).level = some 0 ∧
    dictGet ({ initState with level := some 0 } : BState).parents (0 - 1) =
      some none ∧
    add_header { initState with level := some 0 } "HeadingX" none "C" =
      .ok { ({ initState with level := some 0 } : BState) with
        parents := dictSet initState.parents 0 (some 0)
        doc := (initState.doc.addNode none NodeLabel.sectionHeader "C").1 } :=
  ⟨rfl, by decide,
    C6_nonnumeric_uses_stale_level { initState with level := some 0 }
      "HeadingX" "C" 0 none rfl (by decide)⟩

/-- C4: amended claim.  The close runs only for *paragraph* elements
(`add_text`) with no numbering id: for those, before the element is
dispatched and placed, `closeListBranch` clears every tracker slot at
depth at least the recorded base level `b = level_at_new_list`, records
`self.level = b - 1` and resets `level_at_new_list` to `None`; `add_text`
then places the element starting from that cleared state.  Tables and
figures (also non-list elements) bypass this close entirely, as
`C4_counterexample` shows. -/
theorem C4_close_before_paragraph (st : BState) (sty : Option String)
    (tx : String) (il : Option Int) (b : Int) (pname : String)
    (plevel : Option Int)
    (hl : st.level_at_new_list = some b)
    (hprev : prev_numid st ≠ none)
    (hlab : get_label_and_level sty = .ok (pname, plevel)) :
    ∃ st1, closeListBranch st = .ok st1
      ∧ st1.level_at_new_list = none
      ∧ st1.level = some (b - 1)
      ∧ (∀ kv ∈ st1.parents, b ≤ kv.1 → kv.2 = none)
      ∧ add_text st sty (some tx) none il =
          (match dispatch_pname st1 pname plevel (pyStrip tx) with
           | .error e => .error e
           | .ok st2 => .ok (update_history st2 (some pname) plevel none il)) := by
  have hclose : closeListBranch st = .ok { st with
      parents := st.parents.map (fun p => if b ≤ p.1 then (p.1, none) else p)
      level := some (b - 1)
      level_at_new_list := none } := by
    unfold closeListBranch
    rw [hl]
  refine ⟨_, hclose, rfl, rfl, ?_, ?_⟩
  · intro kv hkv hble
    rcases List.mem_map.mp hkv with ⟨q, hq, rfl⟩
    by_cases hbq : b ≤ q.1
    · simp [hbq]
    · rw [if_neg hbq] at hble
      exact absurd hble hbq
  · unfold add_text
    rw [hlab]
    rw [if_pos ⟨rfl, hprev⟩, hclose]

/-- C4 witness: concrete close at base level 0 after a list item with
numbering id 5, followed by a "Normal" paragraph. -/
theorem C4_close_before_paragraph_witness :
    ({ (update_history initState (some "List Paragraph") none (some 5)
        (some 0)) with level_at_new_list := some 0 } : BState).level_at_new_list
      = some 0 ∧
    prev_numid { (update_history initState (some "List Paragraph") none
      (some 5) (some 0)) with level_at_new_list := some 0 } ≠ none ∧
    get_label_and_level (some "Normal") = .ok ("Normal", none) ∧
    (∃ st1, closeListBranch { (update_history initState
        (some "List Paragraph") none (some 5) (some 0)) with
        level_at_new_list := some 0 } = .ok st1
      ∧ st1.level_at_new_list = none
      ∧ st1.level = some (0 - 1)
      ∧ (∀ kv ∈ st1.parents, (0 : Int) ≤ kv.1 → kv.2 = none)
      ∧ add_text { (update_history initState (some "List Paragraph") none
            (some 5) (some 0)) with level_at_new_list := some 0 }
          (some "Normal") (some "z") none none =
          (match dispatch_pname st1 "Normal" none (pyStrip "z") with
           | .error e => .error e
           | .ok st2 => .ok (update_history st2 (some "Normal") none none none))) :=
  ⟨rfl, by decide, by decide,
    C4_close_before_paragraph _ (some "Normal") "z" none 0 "Normal" none
      rfl (by decide) (by decide)⟩


/-- Helper: no branch of `add_listitem` writes the `level` attribute. -/
theorem add_listitem_level (st : BState) (pname : String) (plevel : Option Int)
    (numid ilevel : Int) (text : String) (st' : BState)
    (h : add_listitem st pname plevel numid ilevel text = .ok st') :
    st'.level = st.level := by
  unfold add_listitem at h
  simp only [] at h
  repeat' split at h
  all_goals first
    | (cases h; rfl)
    | (simp at h)

/-- Helper: no branch of `add_header` writes the `level` attribute. -/
theorem add_header_level (st : BState) (curr_name : String)
    (curr_level : Option Int) (text : String) (st' : BState)
    (h : add_header st curr_name curr_level text = .ok st') :
    st'.level = st.level := by
  unfold add_header at h
  simp only [] at h
  repeat' split at h
  all_goals first
    | (cases h; rfl)
    | (simp at h)

/-- Helper: the style dispatch of `add_text` never writes `level`. -/
theorem dispatch_pname_level (st : BState) (pname : String)
    (plevel : Option Int) (text : String) (st' : BState)
    (h : dispatch_pname st pname plevel text = .ok st') :
    st'.level = st.level := by
  unfold dispatch_pname at h
  simp only [] at h
  split at h
  · cases h; rfl
  · split at h
    · exact add_header_level st pname plevel text st' h
    · split at h
      · repeat' split at h
        all_goals first
          | (cases h; rfl)
          | (simp at h)
      · cases h

/-- Helper: `add_table` never writes the `level` attribute. -/
theorem add_table_level (st : BState) (t : List (List CellIn)) (st' : BState)
    (h : add_table st t = .ok st') : st'.level = st.level := by
  unfold add_table at h
  simp only [] at h
  repeat' split at h
  all_goals first
    | (cases h; rfl)
    | (simp at h)

/-- Helper: `add_figure` never writes the `level` attribute. -/
theorem add_figure_level (st : BState) (st' : BState)
    (h : add_figure st = .ok st') : st'.level = st.level := by
  unfold add_figure at h
  simp only [] at h
  repeat' split at h
  all_goals first
    | (cases h; rfl)
    | (simp at h)

/-- Helper: `add_text` leaves `level` unchanged unless it ran the
close-list branch, which requires a paragraph with no numbering id and a
previous element that was a list item. -/
theorem add_text_level (st : BState) (sty tx : Option String)
    (numid il : Option Int) (st' : BState)
    (h : add_text st sty tx numid il = .ok st') :
    st'.level = st.level ∨ (numid = none ∧ prev_numid st ≠ none) := by
  unfold add_text at h
  cases tx with
  | none => cases h; exact Or.inl rfl
  | some rawText =>
    simp only [] at h
    split at h
    · cases h
    · split at h
      · split at h
        · cases h
        · rename_i x2 st2 heq
          cases h
          exact Or.inl (add_listitem_level st _ _ _ _ _ st2 heq)
      · by_cases hc : numid = none ∧ prev_numid st ≠ none
        · exact Or.inr hc
        · rw [if_neg hc] at h
          simp only [] at h
          split at h
          · cases h
          · rename_i x2 st2 heq
            cases h
            exact Or.inl (dispatch_pname_level st _ _ _ st2 heq)

/-- C10: confirmed.  `self.level` starts unassigned (`__init__` never sets
it) and reading it with no assignment fails: `add_figure` and the
non-numeric branch of `add_header` both produce the AttributeError
instead of attaching the node.  Moreover no processing step changes the
attribute except the close-list branch of `add_text`, which requires a
paragraph with no numbering id whose predecessor was a list item — i.e. a
list that was opened and then closed.  Hence any stream that reaches a
figure (or a level-less heading) before such a close fails at that
element. -/
theorem C10_level_unset_fails :
    initState.level = none ∧
    (∀ st : BState, st.level = none →
      add_figure st = .error "AttributeError: self.level is not set") ∧
    (∀ (st : BState) (n t : String), st.level = none →
      add_header st n none t = .error "AttributeError: self.level is not set") ∧
    (∀ (st : BState) (e : Element) (st' : BState),
      stepElement st e = .ok st' →
      st'.level = st.level ∨
      (∃ sty tx il, e = Element.para sty (some tx) none il ∧
        prev_numid st ≠ none)) := by
  refine ⟨rfl, ?_, ?_, ?_⟩
  · intro st hl
    unfold add_figure
    rw [hl]
  · intro st n t hl
    unfold add_header
    rw [hl]
  · intro st e st' h
    cases e with
    | para sty tx numid il =>
      rcases tx with _ | rawText
      · cases h; exact Or.inl rfl
      · rcases add_text_level st sty (some rawText) numid il st' h with
          hlev | ⟨hnum, hprev⟩
        · exact Or.inl hlev
        · exact Or.inr ⟨sty, rawText, il, by rw [hnum], hprev⟩
    | table rows => exact Or.inl (add_table_level st rows st' h)
    | figure => exact Or.inl (add_figure_level st st' h)
    | other tag => cases h; exact Or.inl rfl

/-- C10 witness: at the initial state, processing a figure fails with the
AttributeError. -/
theorem C10_level_unset_fails_witness :
    initState.level = none ∧
    add_figure initState = .error "AttributeError: self.level is not set" :=
  ⟨C10_level_unset_fails.1,
    C10_level_unset_fails.2.1 initState C10_level_unset_fails.1⟩

/-- Helper: the bridging loop of `add_header` (lines 226-231).  Starting
with slot `i - 1` readable as `p`, running `n` iterations succeeds and
creates exactly `n` section-group nodes appended to the document, chained
from `p` (each group's parent is the node created just before it), assigns
slot `i + j` to the `j`-th group, and leaves every other slot unchanged. -/
theorem addGroupChain_spec (n : Nat) :
    ∀ (parents : PDict) (doc : Doc) (i : Int) (p : Option Nat),
    dictGet parents (i - 1) = some p →
    ∃ parents2 doc2 gs, addGroupChain parents doc i n = .ok (parents2, doc2)
      ∧ doc2.items = doc.items ++ gs
      ∧ gs.length = n
      ∧ (∀ it ∈ gs, it.label = NodeLabel.groupSection)
      ∧ chainedFrom p gs
      ∧ (∀ j : Nat, j < n → ∃ it, gs[j]? = some it ∧
          dictGet parents2 (i + (j : Int)) = some (some it.id))
      ∧ (∀ k : Int, k < i ∨ i + (n : Int) ≤ k →
          dictGet parents2 k = dictGet parents k) := by
  induction n with
  | zero =>
    intro parents doc i p hp
    refine ⟨parents, doc, [], rfl, by simp, rfl, by simp, trivial,
      fun j hj => absurd hj (Nat.not_lt_zero j), fun k _ => rfl⟩
  | succ m ih =>
    intro parents doc i p hp
    obtain ⟨parents2, doc2, gs, hrun, hitems, hlen, hlab, hchain, hslots, hpres⟩ :=
      ih (dictSet parents i (some doc.nextId))
        ((doc.addNode p NodeLabel.groupSection (String.append "header-" (toString i))).1)
        (i + 1) (some doc.nextId)
        (by rw [show i + 1 - 1 = i by ring]; exact dictGet_dictSet_self _ _ _)
    refine ⟨parents2, doc2,
      DocItem.mk doc.nextId p NodeLabel.groupSection
        (String.append "header-" (toString i)) [] :: gs,
      ?_, ?_, ?_, ?_, ?_, ?_, ?_⟩
    · unfold addGroupChain
      rw [hp]
      exact hrun
    · rw [hitems]
      simp [Doc.addNode]
    · simp [hlen]
    · intro it hit
      rcases List.mem_cons.mp hit with rfl | hit2
      · rfl
      · exact hlab it hit2
    · simpa [chainedFrom] using hchain
    · intro j hj
      cases j with
      | zero =>
        refine ⟨DocItem.mk doc.nextId p NodeLabel.groupSection
          (String.append "header-" (toString i)) [], by simp, ?_⟩
        have hpi := hpres i (Or.inl (by omega))
        simp only [Nat.cast_zero, add_zero, hpi, dictGet_dictSet_self]
      | succ j2 =>
        obtain ⟨it, hgsj, hdict⟩ := hslots j2 (by omega)
        refine ⟨it, by simpa using hgsj, ?_⟩
        have : i + ((j2 : Int) + 1) = (i + 1) + (j2 : Int) := by ring
        rw [show ((j2 + 1 : Nat) : Int) = (j2 : Int) + 1 by push_cast; ring, this]
        exact hdict
    · intro k hk
      have hne : i ≠ k := by
        rcases hk with hk | hk
        · omega
        · push_cast at hk; omega
      have hk2 : k < i + 1 ∨ (i + 1) + (m : Int) ≤ k := by
        rcases hk with hk | hk
        · exact Or.inl (by omega)
        · right
          push_cast at hk ⊢
          omega
      rw [hpres k hk2, dictGet_dictSet_ne _ _ _ _ hne]

/-- Helper: extending a parent chain by one item whose parent is the
chain's last node (or `p` when the chain is empty). -/
theorem chainedFrom_append_one (it : DocItem) :
    ∀ (gs : List DocItem) (p : Option Nat), chainedFrom p gs →
    it.parent = (match gs.getLast? with | none => p | some g => some g.id) →
    chainedFrom p (gs ++ [it]) := by
  intro gs
  induction gs with
  | nil =>
    intro p hc hp
    exact ⟨hp, trivial⟩
  | cons g rest ih =>
    intro p hc hp
    obtain ⟨hg, hrest⟩ := hc
    refine ⟨hg, ih (some g.id) hrest ?_⟩
    cases rest with
    | nil => simpa using hp
    | cons g2 rest2 => simpa [List.getLast?_cons_cons] using hp

/-- C5: confirmed.  For a heading whose numeric level `curr` exceeds the
current open level `level = get_level()`: `add_header` succeeds, appends
exactly `curr - level` anonymous section-group nodes (one per intermediate
level in `[level, curr)`) followed by the heading node; the appended nodes
form a parent chain starting at `parents[level - 1]` (so group `i` hangs
under `parents[i-1]` and the heading hangs under `parents[curr-1]`, the
last group); the `j`-th group is assigned to tracker slot `level + j` and
the heading to slot `curr`; and afterwards every level `0..curr` between
the root and the new heading is set (levels below `level` were already
set, which the hypothesis `hbelow` states). -/
theorem C5_heading_bridges (st : BState) (name text : String) (curr : Int)
    (pv : Option Nat)
    (hcurr : get_level st.parents < curr)
    (hp : dictGet st.parents (get_level st.parents - 1) = some pv)
    (hbelow : ∀ k : Int, 0 ≤ k → k < get_level st.parents →
      ∃ nd, dictGet st.parents k = some (some nd)) :
    ∃ st' gs hd, add_header st name (some curr) text = .ok st'
      ∧ st'.doc.items = st.doc.items ++ (gs ++ [hd])
      ∧ gs.length = (curr - get_level st.parents).toNat
      ∧ (∀ it ∈ gs, it.label = NodeLabel.groupSection)
      ∧ hd.label = NodeLabel.sectionHeader ∧ hd.text = text
      ∧ chainedFrom pv (gs ++ [hd])
      ∧ (∀ j : Nat, j < gs.length → ∃ it, gs[j]? = some it ∧
          dictGet st'.parents (get_level st.parents + (j : Int)) = some (some it.id))
      ∧ dictGet st'.parents curr = some (some hd.id)
      ∧ (∀ k : Int, 0 ≤ k → k ≤ curr →
          ∃ nd, dictGet st'.parents k = some (some nd)) := by
  obtain ⟨parents2, doc2, gs, hrun, hitems, hlen, hlab, hchain, hslots, hpres⟩ :=
    addGroupChain_spec (curr - get_level st.parents).toNat st.parents st.doc
      (get_level st.parents) pv hp
  have hn1 : 1 ≤ (curr - get_level st.parents).toNat := by omega
  obtain ⟨itl, hitl, hdictl⟩ := hslots ((curr - get_level st.parents).toNat - 1)
    (by omega)
  have hlast : dictGet parents2 (curr - 1) = some (some itl.id) := by
    have harith : get_level st.parents +
        (((curr - get_level st.parents).toNat - 1 : Nat) : Int) = curr - 1 := by
      omega
    rw [← harith]
    exact hdictl
  refine ⟨BState.mk (dictSet parents2 curr (some doc2.nextId))
      st.level_at_new_list st.level st.hist_names st.hist_levels
      st.hist_numids st.hist_indents
      ((doc2.addNode (some itl.id) NodeLabel.sectionHeader text).1),
    gs, DocItem.mk doc2.nextId (some itl.id) NodeLabel.sectionHeader text [],
    ?_, ?_, hlen, hlab, rfl, rfl, ?_, ?_, ?_, ?_⟩
  · unfold add_header
    simp only []
    rw [if_neg (by omega : ¬ curr = get_level st.parents)]
    rw [if_pos hcurr, hrun]
    simp only []
    rw [hlast]
    rfl
  · simp only [Doc.addNode, hitems]
    simp [List.append_assoc]
  · refine chainedFrom_append_one _ gs pv hchain ?_
    have hgl : gs.getLast? = some itl := by
      rw [List.getLast?_eq_getElem?, hlen]
      exact hitl
    rw [hgl]
  · intro j hj
    obtain ⟨it, hgj, hdict⟩ := hslots j (by omega)
    refine ⟨it, hgj, ?_⟩
    have hne : curr ≠ get_level st.parents + (j : Int) := by
      rw [hlen] at hj
      omega
    rw [dictGet_dictSet_ne _ _ _ _ hne]
    exact hdict
  · rw [dictGet_dictSet_self]
  · intro k hk0 hkc
    by_cases hkcur : k = curr
    · subst hkcur
      exact ⟨doc2.nextId, dictGet_dictSet_self _ _ _⟩
    · have hne : curr ≠ k := fun hc => hkcur hc.symm
      rw [dictGet_dictSet_ne _ _ _ _ hne]
      by_cases hklev : k < get_level st.parents
      · obtain ⟨nd, hnd⟩ := hbelow k hk0 hklev
        refine ⟨nd, ?_⟩
        rw [hpres k (Or.inl hklev)]
        exact hnd
      · obtain ⟨it, hgj, hdict⟩ := hslots (k - get_level st.parents).toNat
          (by omega)
        refine ⟨it.id, ?_⟩
        have harith : get_level st.parents +
            (((k - get_level st.parents).toNat : Nat) : Int) = k := by
          omega
        rw [← harith]
        exact hdict

/-- C5 witness: a "Heading 2" seen at the initial state (open level 0)
bridges level 0 and 1 with section groups and sets slots 0, 1, 2. -/
theorem C5_heading_bridges_witness :
    get_level initState.parents < 2 ∧
    dictGet initState.parents (get_level initState.parents - 1) = some none ∧
    (∃ st' gs hd, add_header initState "Heading" (some 2) "T" = .ok st'
      ∧ st'.doc.items = initState.doc.items ++ (gs ++ [hd])
      ∧ gs.length = (2 - get_level initState.parents).toNat
      ∧ (∀ it ∈ gs, it.label = NodeLabel.groupSection)
      ∧ hd.label = NodeLabel.sectionHeader ∧ hd.text = "T"
      ∧ chainedFrom none (gs ++ [hd])
      ∧ (∀ j : Nat, j < gs.length → ∃ it, gs[j]? = some it ∧
          dictGet st'.parents (get_level initState.parents + (j : Int)) =
            some (some it.id))
      ∧ dictGet st'.parents 2 = some (some hd.id)
      ∧ (∀ k : Int, 0 ≤ k → k ≤ 2 →
          ∃ nd, dictGet st'.parents k = some (some nd))) :=
  ⟨by decide, by decide,
    C5_heading_bridges initState "Heading" "T" 2 none (by decide) (by decide)
      (fun k hk0 hklt => absurd (lt_of_le_of_lt hk0 hklt) (by decide))⟩

/-- Helper: reading a just-written list index. -/
theorem getElem?_set_self {α : Type} : ∀ (l : List α) (i : Nat) (v : α),
    i < l.length → (l.set i v)[i]? = some v := by
  intro l
  induction l with
  | nil => intro i v h; simp at h
  | cons a as ih =>
    intro i v h
    cases i with
    | zero => simp
    | succ i2 =>
      rw [List.set_cons_succ, List.getElem?_cons_succ]
      exact ih i2 v (by simpa using h)

/-- Helper: writing one list index leaves the others unchanged. -/
theorem getElem?_set_ne {α : Type} : ∀ (l : List α) (i j : Nat) (v : α),
    i ≠ j → (l.set i v)[j]? = l[j]? := by
  intro l
  induction l with
  | nil => intro i j v h; simp
  | cons a as ih =>
    intro i j v h
    cases i with
    | zero =>
      cases j with
      | zero => exact absurd rfl h
      | succ j2 => simp
    | succ i2 =>
      cases j with
      | zero => simp
      | succ j2 =>
        rw [List.set_cons_succ, List.getElem?_cons_succ, List.getElem?_cons_succ]
        exact ih i2 j2 v (fun hc => h (by rw [hc]))

/-- Helper: peeling one filled slot off a partially filled row. -/
theorem prefixRow_cons (f W : Nat) :
    prefixRow (f + 1) (W + 1) = some "" :: prefixRow f W := by
  unfold prefixRow
  rw [List.replicate_succ, Nat.succ_sub_succ, List.cons_append]

/-- Helper: a partially filled row of width `W` has length `W`. -/
theorem prefixRow_length (f W : Nat) (h : f ≤ W) :
    (prefixRow f W).length = W := by
  unfold prefixRow
  simp
  omega

/-- Helper: slots before the fill boundary read as occupied. -/
theorem getElem?_prefixRow_lt (f : Nat) : ∀ (W c : Nat), c < f → f ≤ W →
    (prefixRow f W)[c]? = some (some "") := by
  induction f with
  | zero => intro W c hc _; omega
  | succ f2 ih =>
    intro W c hc hw
    obtain ⟨W2, rfl⟩ : ∃ W2, W = W2 + 1 := ⟨W - 1, by omega⟩
    rw [prefixRow_cons]
    cases c with
    | zero => simp
    | succ c2 =>
      rw [List.getElem?_cons_succ]
      exact ih W2 c2 (by omega) (by omega)

/-- Helper: the slot at the fill boundary reads as free. -/
theorem getElem?_prefixRow_eq (f : Nat) : ∀ (W : Nat), f < W →
    (prefixRow f W)[f]? = some none := by
  induction f with
  | zero =>
    intro W h
    obtain ⟨W2, rfl⟩ : ∃ W2, W = W2 + 1 := ⟨W - 1, by omega⟩
    simp [prefixRow, List.replicate_succ]
  | succ f2 ih =>
    intro W h
    obtain ⟨W2, rfl⟩ : ∃ W2, W = W2 + 1 := ⟨W - 1, by omega⟩
    rw [prefixRow_cons, List.getElem?_cons_succ]
    exact ih W2 (by omega)

/-- Helper: occupying the boundary slot advances the boundary. -/
theorem prefixRow_set (f : Nat) : ∀ (W : Nat), f < W →
    (prefixRow f W).set f (some "") = prefixRow (f + 1) W := by
  induction f with
  | zero =>
    intro W h
    obtain ⟨W2, rfl⟩ : ∃ W2, W = W2 + 1 := ⟨W - 1, by omega⟩
    rw [prefixRow_cons]
    simp [prefixRow, List.replicate_succ]
  | succ f2 ih =>
    intro W h
    obtain ⟨W2, rfl⟩ : ∃ W2, W = W2 + 1 := ⟨W - 1, by omega⟩
    rw [prefixRow_cons, prefixRow_cons, List.set_cons_succ, ih W2 (by omega)]

/-- Helper: on a row filled up to `f`, the column-cursor advance of
`add_table` stops exactly at `f` (given enough fuel, which the call site
always supplies). -/
theorem advanceCol_prefixRow : ∀ (fuel c f W : Nat), c ≤ f → f < W →
    f - c < fuel → advanceCol (prefixRow f W) c fuel = .ok f := by
  intro fuel
  induction fuel with
  | zero => intro c f W _ _ h; omega
  | succ fu ih =>
    intro c f W hcf hfw hfuel
    unfold advanceCol
    by_cases hc : c = f
    · subst hc
      rw [getElem?_prefixRow_eq c W hfw]
    · rw [getElem?_prefixRow_lt f W c (by omega) (by omega)]
      exact ih (c + 1) f W (by omega) hfw (by omega)

/-- Helper: the inner span fill marks `n` more slots of row `r`,
advancing its boundary from `f` to `f + n` and touching no other row. -/
theorem fillSlots_prefixRow : ∀ (n : Nat) (g : List (List (Option String)))
    (r f W : Nat), g[r]? = some (prefixRow f W) → f + n ≤ W →
    ∃ g2, fillSlots g r f n = .ok g2
      ∧ g2[r]? = some (prefixRow (f + n) W)
      ∧ (∀ r2, r2 ≠ r → g2[r2]? = g[r2]?)
      ∧ g2.length = g.length := by
  intro n
  induction n with
  | zero =>
    intro g r f W hg _
    exact ⟨g, rfl, by simpa using hg, fun r2 _ => rfl, rfl⟩
  | succ m ih =>
    intro g r f W hg hfw
    have hrlen : r < g.length := by
      by_contra hc
      rw [List.getElem?_eq_none (by omega)] at hg
      cases hg
    have hstep : setSlot g r f = .ok (g.set r (prefixRow (f + 1) W)) := by
      unfold setSlot
      rw [hg]
      simp only []
      rw [if_pos (by rw [prefixRow_length f W (by omega)]; omega)]
      rw [prefixRow_set f W (by omega)]
    obtain ⟨g2, hrun, hg2, hne, hlen⟩ :=
      ih (g.set r (prefixRow (f + 1) W)) r (f + 1) W
        (by rw [getElem?_set_self _ _ _ (by simpa using hrlen)])
        (by omega)
    refine ⟨g2, ?_, ?_, ?_, ?_⟩
    · unfold fillSlots
      rw [hstep]
      exact hrun
    · rw [hg2]
      have : f + 1 + m = f + (m + 1) := by omega
      rw [this]
    · intro r2 hr2
      rw [hne r2 hr2, getElem?_set_ne _ _ _ _ (fun hc => hr2 hc.symm)]
    · rw [hlen, List.length_set]

/-- Sum of the `toNat` column spans of a row segment; equals
`rowColspanSum` when every span is at least 1. -/
def spanSumNat : List CellIn → Nat
  | [] => 0
  | c :: cs => (get_colspan c).toNat + spanSumNat cs

/-- Helper: with positive spans the natural and integer span sums agree. -/
theorem spanSumNat_cast (cs : List CellIn)
    (h : ∀ c ∈ cs, 1 ≤ get_colspan c) :
    (spanSumNat cs : Int) = rowColspanSum cs := by
  induction cs with
  | nil => rfl
  | cons c cs2 ih =>
    unfold spanSumNat rowColspanSum
    push_cast
    rw [ih (fun c2 hc2 => h c2 (List.mem_cons_of_mem c hc2))]
    rw [Int.toNat_of_nonneg (by have := h c (List.mem_cons_self c cs2); omega)]

/-- Helper: positive spans give a non-negative row span sum. -/
theorem rowColspanSum_nonneg (cs : List CellIn)
    (h : ∀ c ∈ cs, 1 ≤ get_colspan c) : 0 ≤ rowColspanSum cs := by
  induction cs with
  | nil => simp [rowColspanSum]
  | cons c cs2 ih =>
    unfold rowColspanSum
    have h1 := h c (List.mem_cons_self c cs2)
    have h2 := ih (fun c2 hc2 => h c2 (List.mem_cons_of_mem c hc2))
    omega

/-- Helper: one vMerge-free row of the table loop succeeds, emits exactly
the cells `mkCells r f cs` (consecutive rectangles of the declared spans),
fills row `r` up to `f` plus the span total, and leaves other rows
untouched. -/
theorem processCells_spec : ∀ (cs : List CellIn)
    (g : List (List (Option String))) (acc : List TCell) (r cIdx f W : Nat),
    (∀ c ∈ cs, c.vMerge = none ∧ 1 ≤ get_colspan c) →
    g[r]? = some (prefixRow f W) →
    cIdx ≤ f →
    (f : Int) + rowColspanSum cs ≤ (W : Int) →
    ∃ g2, processCells g acc r cIdx cs = .ok (g2, acc ++ mkCells r f cs)
      ∧ g2[r]? = some (prefixRow (f + spanSumNat cs) W)
      ∧ (∀ r2, r2 ≠ r → g2[r2]? = g[r2]?)
      ∧ g2.length = g.length := by
  intro cs
  induction cs with
  | nil =>
    intro g acc r cIdx f W _ hg _ _
    refine ⟨g, ?_, by simpa [spanSumNat] using hg, fun r2 _ => rfl, rfl⟩
    simp [processCells, mkCells]
  | cons c cs2 ih =>
    intro g acc r cIdx f W hvs hg hcf hbound
    have hv := (hvs c (List.mem_cons_self c cs2)).1
    have hs1 := (hvs c (List.mem_cons_self c cs2)).2
    have hrest : ∀ c2 ∈ cs2, c2.vMerge = none ∧ 1 ≤ get_colspan c2 :=
      fun c2 hc2 => hvs c2 (List.mem_cons_of_mem c hc2)
    have hnn : 0 ≤ rowColspanSum cs2 :=
      rowColspanSum_nonneg cs2 (fun c2 hc2 => (hrest c2 hc2).2)
    have hcast : ((get_colspan c).toNat : Int) = get_colspan c :=
      Int.toNat_of_nonneg (by omega)
    have hboundc : (f : Int) + get_colspan c + rowColspanSum cs2 ≤ (W : Int) := by
      unfold rowColspanSum at hbound
      omega
    have hfW : f < W := by omega
    have hfn : f + (get_colspan c).toNat ≤ W := by omega
    obtain ⟨g1, hfill, hg1, hne1, hlen1⟩ :=
      fillSlots_prefixRow ((get_colspan c).toNat) g r f W hg hfn
    obtain ⟨g2, hrun2, hg2, hne2, hlen2⟩ :=
      ih g1
        (acc ++ [TCell.mk c.text 1 (get_colspan c) (r : Int) ((r : Int) + 1)
          (f : Int) ((f : Int) + get_colspan c) false false])
        r f (f + (get_colspan c).toNat) W hrest hg1 (by omega) (by push_cast; omega)
    refine ⟨g2, ?_, ?_, ?_, ?_⟩
    · unfold processCells
      rw [hg]
      simp only []
      rw [prefixRow_length f W (by omega)]
      rw [advanceCol_prefixRow (W + 1) cIdx f W hcf hfW (by omega)]
      simp only []
      rw [hv]
      simp only []
      rw [hfill]
      simp only []
      rw [hrun2]
      simp [mkCells, List.append_assoc]
    · rw [hg2]
      have heq : f + (get_colspan c).toNat + spanSumNat cs2 =
          f + spanSumNat (c :: cs2) := by
        simp only [spanSumNat]
        omega
      rw [heq]
    · intro r2 hr2
      rw [hne2 r2 hr2, hne1 r2 hr2]
    · rw [hlen2, hlen1]

/-- Helper: the whole row loop of `add_table` over a vMerge-free table
succeeds and emits exactly `mkAllCells r rows`. -/
theorem processRows_spec : ∀ (rows : List (List CellIn))
    (g : List (List (Option String))) (acc : List TCell) (r W : Nat),
    (∀ row ∈ rows, ∀ c ∈ row, c.vMerge = none ∧ 1 ≤ get_colspan c) →
    (∀ row ∈ rows, rowColspanSum row ≤ (W : Int)) →
    (∀ k : Nat, r ≤ k → k < g.length → g[k]? = some (prefixRow 0 W)) →
    r + rows.length ≤ g.length →
    ∃ g2, processRows g acc r rows = .ok (g2, acc ++ mkAllCells r rows) := by
  intro rows
  induction rows with
  | nil =>
    intro g acc r W _ _ _ _
    exact ⟨g, by simp [processRows, mkAllCells]⟩
  | cons row rest ih =>
    intro g acc r W hvs hws hg hlen
    have hrlen : r < g.length := by
      have := hlen
      simp [List.length_cons] at this
      omega
    obtain ⟨g1, hrun1, hg1, hne1, hlen1⟩ :=
      processCells_spec row g acc r 0 0 W
        (hvs row (List.mem_cons_self row rest)) (hg r le_rfl hrlen)
        le_rfl (by simpa using hws row (List.mem_cons_self row rest))
    obtain ⟨g2, hrun2⟩ :=
      ih g1 (acc ++ mkCells r 0 row) (r + 1) W
        (fun row2 hr2 => hvs row2 (List.mem_cons_of_mem row hr2))
        (fun row2 hr2 => hws row2 (List.mem_cons_of_mem row hr2))
        (fun k hk1 hk2 => by
          rw [hne1 k (by omega)]
          exact hg k (by omega) (by omega))
        (by simp at hlen ⊢; omega)
    refine ⟨g2, ?_⟩
    unfold processRows
    rw [hrun1]
    simp only []
    rw [hrun2]
    simp [mkAllCells, List.append_assoc]

/-- Helper: the computed grid width is non-negative. -/
theorem numColsOf_nonneg (t : List (List CellIn)) : 0 ≤ numColsOf t := by
  induction t with
  | nil => simp [numColsOf]
  | cons r rs ih =>
    unfold numColsOf
    exact le_trans ih (le_max_left _ _)

/-- Helper: each row span sum is at most the computed grid width. -/
theorem row_le_numColsOf (t : List (List CellIn)) (row : List CellIn)
    (h : row ∈ t) : rowColspanSum row ≤ numColsOf t := by
  induction t with
  | nil => cases h
  | cons r rs ih =>
    rcases List.mem_cons.mp h with rfl | h2
    · exact le_max_right _ _
    · exact le_trans (ih h2) (le_max_left _ _)

/-- Helper: each emitted cell of a row sits in row `r` and within the
column window `[f, f + rowColspanSum cs)`. -/
theorem mkCells_bounds (r : Nat) : ∀ (cs : List CellIn) (f : Nat),
    (∀ c ∈ cs, 1 ≤ get_colspan c) →
    ∀ tc ∈ mkCells r f cs,
      tc.start_row_offset_idx = (r : Int) ∧
      tc.end_row_offset_idx = (r : Int) + 1 ∧
      (f : Int) ≤ tc.start_col_offset_idx ∧
      tc.start_col_offset_idx < tc.end_col_offset_idx ∧
      tc.end_col_offset_idx ≤ (f : Int) + rowColspanSum cs := by
  intro cs
  induction cs with
  | nil => intro f _ tc htc; cases htc
  | cons c cs2 ih =>
    intro f hs tc htc
    have hs1 := hs c (List.mem_cons_self c cs2)
    have hnn : 0 ≤ rowColspanSum cs2 :=
      rowColspanSum_nonneg cs2 (fun c2 hc2 => hs c2 (List.mem_cons_of_mem c hc2))
    have hcast : ((get_colspan c).toNat : Int) = get_colspan c :=
      Int.toNat_of_nonneg (by omega)
    rcases List.mem_cons.mp htc with rfl | htc2
    · refine ⟨rfl, rfl, le_rfl, by simp; omega, ?_⟩
      simp only [rowColspanSum]
      simp
      omega
    · obtain ⟨h1, h2, h3, h4, h5⟩ :=
        ih (f + (get_colspan c).toNat)
          (fun c2 hc2 => hs c2 (List.mem_cons_of_mem c hc2)) tc htc2
      refine ⟨h1, h2, ?_, h4, ?_⟩
      · refine le_trans ?_ h3
        push_cast
        omega
      · refine le_trans h5 ?_
        simp only [rowColspanSum]
        push_cast
        omega

/-- Helper: within one row the emitted cells claim pairwise disjoint
slots (their column intervals are consecutive). -/
theorem mkCells_pairwise (r : Nat) : ∀ (cs : List CellIn) (f : Nat),
    (∀ c ∈ cs, 1 ≤ get_colspan c) →
    List.Pairwise (fun a b => ∀ rr cc : Int,
      cellCovers a rr cc = true → cellCovers b rr cc = false) (mkCells r f cs) := by
  intro cs
  induction cs with
  | nil => intro f _; exact List.Pairwise.nil
  | cons c cs2 ih =>
    intro f hs
    have hs1 := hs c (List.mem_cons_self c cs2)
    have hcast : ((get_colspan c).toNat : Int) = get_colspan c :=
      Int.toNat_of_nonneg (by omega)
    refine List.Pairwise.cons ?_ (ih (f + (get_colspan c).toNat)
      (fun c2 hc2 => hs c2 (List.mem_cons_of_mem c hc2)))
    intro tc htc rr cc hcov
    obtain ⟨_, _, h3, _, _⟩ :=
      mkCells_bounds r cs2 (f + (get_colspan c).toNat)
        (fun c2 hc2 => hs c2 (List.mem_cons_of_mem c hc2)) tc htc
    simp only [cellCovers, Bool.and_eq_true, decide_eq_true_eq] at hcov
    rw [← Bool.not_eq_true]
    intro hcov2
    simp only [cellCovers, Bool.and_eq_true, decide_eq_true_eq] at hcov2
    push_cast at h3
    omega

/-- Helper: within one row, every column in `[f, f + rowColspanSum cs)` is
covered by some emitted cell. -/
theorem mkCells_cover (r : Nat) : ∀ (cs : List CellIn) (f : Nat),
    (∀ c ∈ cs, 1 ≤ get_colspan c) →
    ∀ cc : Int, (f : Int) ≤ cc → cc < (f : Int) + rowColspanSum cs →
    ∃ tc ∈ mkCells r f cs, cellCovers tc (r : Int) cc = true := by
  intro cs
  induction cs with
  | nil =>
    intro f _ cc h1 h2
    simp only [rowColspanSum] at h2
    omega
  | cons c cs2 ih =>
    intro f hs cc h1 h2
    have hs1 := hs c (List.mem_cons_self c cs2)
    have hcast : ((get_colspan c).toNat : Int) = get_colspan c :=
      Int.toNat_of_nonneg (by omega)
    simp only [mkCells]
    by_cases hcc : cc < (f : Int) + get_colspan c
    · refine ⟨_, List.mem_cons_self _ _, ?_⟩
      simp only [cellCovers, Bool.and_eq_true, decide_eq_true_eq]
      refine ⟨⟨⟨le_rfl, by omega⟩, h1⟩, hcc⟩
    · simp only [rowColspanSum] at h2
      obtain ⟨tc, htc, hcov⟩ :=
        ih (f + (get_colspan c).toNat)
          (fun c2 hc2 => hs c2 (List.mem_cons_of_mem c hc2)) cc
          (by push_cast; omega) (by push_cast; omega)
      exact ⟨tc, List.mem_cons_of_mem _ htc, hcov⟩

/-- Helper: the all-free row is the zero-boundary partial row. -/
theorem prefixRow_zero (W : Nat) : prefixRow 0 W = List.replicate W none := by
  unfold prefixRow
  simp

/-- Helper: emitted cells of one row always record rows `[r, r+1)`. -/
theorem mkCells_rowinfo (r : Nat) : ∀ (cs : List CellIn) (f : Nat),
    ∀ tc ∈ mkCells r f cs,
      tc.start_row_offset_idx = (r : Int) ∧
      tc.end_row_offset_idx = (r : Int) + 1 := by
  intro cs
  induction cs with
  | nil => intro f tc htc; cases htc
  | cons c cs2 ih =>
    intro f tc htc
    simp only [mkCells] at htc
    rcases List.mem_cons.mp htc with rfl | htc2
    · exact ⟨rfl, rfl⟩
    · exact ih (f + (get_colspan c).toNat) tc htc2

/-- Helper: row bounds of cells emitted from row `r0` onward. -/
theorem mkAllCells_rowinfo : ∀ (rows : List (List CellIn)) (r0 : Nat),
    ∀ tc ∈ mkAllCells r0 rows,
      (r0 : Int) ≤ tc.start_row_offset_idx ∧
      tc.end_row_offset_idx = tc.start_row_offset_idx + 1 ∧
      tc.start_row_offset_idx < (r0 : Int) + rows.length := by
  intro rows
  induction rows with
  | nil => intro r0 tc htc; cases htc
  | cons row rest ih =>
    intro r0 tc htc
    simp only [mkAllCells] at htc
    rcases List.mem_append.mp htc with h | h
    · obtain ⟨h1, h2⟩ := mkCells_rowinfo r0 row 0 tc h
      rw [List.length_cons]
      rw [h1, h2]
      push_cast
      omega
    · obtain ⟨h1, h2, h3⟩ := ih (r0 + 1) tc h
      rw [List.length_cons]
      push_cast at h1 h3 ⊢
      omega

/-- Helper: column bounds of the cells of one row. -/
theorem mkCells_colinfo (r : Nat) : ∀ (cs : List CellIn) (f : Nat),
    (∀ c ∈ cs, 1 ≤ get_colspan c) →
    ∀ tc ∈ mkCells r f cs,
      (f : Int) ≤ tc.start_col_offset_idx ∧
      tc.start_col_offset_idx < tc.end_col_offset_idx ∧
      tc.end_col_offset_idx ≤ (f : Int) + rowColspanSum cs := by
  intro cs f hs tc htc
  obtain ⟨_, _, h3, h4, h5⟩ := mkCells_bounds r cs f hs tc htc
  exact ⟨h3, h4, h5⟩

/-- Helper: column bounds of all emitted cells. -/
theorem mkAllCells_colinfo (Wb : Int) : ∀ (rows : List (List CellIn)) (r0 : Nat),
    (∀ row ∈ rows, ∀ c ∈ row, 1 ≤ get_colspan c) →
    (∀ row ∈ rows, rowColspanSum row ≤ Wb) →
    ∀ tc ∈ mkAllCells r0 rows,
      0 ≤ tc.start_col_offset_idx ∧
      tc.start_col_offset_idx < tc.end_col_offset_idx ∧
      tc.end_col_offset_idx ≤ Wb := by
  intro rows
  induction rows with
  | nil => intro r0 _ _ tc htc; cases htc
  | cons row rest ih =>
    intro r0 hs hw tc htc
    simp only [mkAllCells] at htc
    rcases List.mem_append.mp htc with h | h
    · obtain ⟨h3, h4, h5⟩ :=
        mkCells_colinfo r0 row 0 (hs row (List.mem_cons_self row rest)) tc h
      have hwr := hw row (List.mem_cons_self row rest)
      push_cast at h3 h5
      exact ⟨h3, h4, by omega⟩
    · exact ih (r0 + 1) (fun row2 hr2 => hs row2 (List.mem_cons_of_mem row hr2))
        (fun row2 hr2 => hw row2 (List.mem_cons_of_mem row hr2)) tc h

/-- Helper: across the whole table the emitted cells claim pairwise
disjoint slots (row intervals separate cells of different rows). -/
theorem mkAllCells_pairwise : ∀ (rows : List (List CellIn)) (r0 : Nat),
    (∀ row ∈ rows, ∀ c ∈ row, 1 ≤ get_colspan c) →
    List.Pairwise (fun a b => ∀ rr cc : Int,
      cellCovers a rr cc = true → cellCovers b rr cc = false)
      (mkAllCells r0 rows) := by
  intro rows
  induction rows with
  | nil => intro r0 _; exact List.Pairwise.nil
  | cons row rest ih =>
    intro r0 hs
    simp only [mkAllCells]
    rw [List.pairwise_append]
    refine ⟨mkCells_pairwise r0 row 0 (hs row (List.mem_cons_self row rest)),
      ih (r0 + 1) (fun row2 hr2 => hs row2 (List.mem_cons_of_mem row hr2)), ?_⟩
    intro a ha b hb rr cc hcov
    obtain ⟨ha1, ha2⟩ := mkCells_rowinfo r0 row 0 a ha
    obtain ⟨hb1, hb2, _⟩ := mkAllCells_rowinfo rest (r0 + 1) b hb
    simp only [cellCovers, Bool.and_eq_true, decide_eq_true_eq] at hcov
    rw [← Bool.not_eq_true]
    intro hcov2
    simp only [cellCovers, Bool.and_eq_true, decide_eq_true_eq] at hcov2
    rw [ha1, ha2] at hcov
    push_cast at hb1
    omega

/-- Helper: when every row span sum equals the grid width, every in-grid
slot is covered by some emitted cell. -/
theorem mkAllCells_cover (Wb : Int) : ∀ (rows : List (List CellIn)) (r0 : Nat),
    (∀ row ∈ rows, ∀ c ∈ row, 1 ≤ get_colspan c) →
    (∀ row ∈ rows, rowColspanSum row = Wb) →
    ∀ i : Nat, i < rows.length → ∀ cc : Int, 0 ≤ cc → cc < Wb →
    ∃ tc ∈ mkAllCells r0 rows, cellCovers tc ((r0 : Int) + (i : Int)) cc = true := by
  intro rows
  induction rows with
  | nil => intro r0 _ _ i hi; simp at hi
  | cons row rest ih =>
    intro r0 hs hw i hi cc hcc1 hcc2
    simp only [mkAllCells]
    cases i with
    | zero =>
      obtain ⟨tc, htc, hcov⟩ :=
        mkCells_cover r0 row 0 (hs row (List.mem_cons_self row rest)) cc
          (by omega)
          (by rw [hw row (List.mem_cons_self row rest)]; push_cast; omega)
      refine ⟨tc, List.mem_append.mpr (Or.inl htc), ?_⟩
      simpa using hcov
    | succ i2 =>
      obtain ⟨tc, htc, hcov⟩ :=
        ih (r0 + 1) (fun row2 hr2 => hs row2 (List.mem_cons_of_mem row hr2))
          (fun row2 hr2 => hw row2 (List.mem_cons_of_mem row hr2))
          i2 (by simpa using Nat.lt_of_succ_lt_succ (by simpa using hi)) cc hcc1 hcc2
      refine ⟨tc, List.mem_append.mpr (Or.inr htc), ?_⟩
      have : ((r0 + 1 : Nat) : Int) + (i2 : Int) = (r0 : Int) + ((i2 + 1 : Nat) : Int) := by
        push_cast
        ring
      rw [← this]
      exact hcov

/-- C1: amended claim, proved for every table `add_table` processes
successfully.  A table processes successfully exactly when no cell has a
`vMerge` attribute (any vertical merge raises TypeError, see C7); assuming
also that every declared column span is at least 1: the emitted cells are
exactly `mkAllCells 0 t`, no two emitted cells claim the same grid slot
(pairwise disjoint occupied slots), every occupied slot lies inside the
`rows x cols` rectangle, and the union of occupied slots equals the full
rectangle precisely when every row's spans sum to the computed grid width
— a ragged row leaves its trailing slots uncovered (`C1_counterexample`),
and vertical merges never contribute continuation-row slots because they
abort the table. -/
theorem C1_grid_amended (t : List (List CellIn))
    (hv : ∀ row ∈ t, ∀ c ∈ row, c.vMerge = none ∧ 1 ≤ get_colspan c) :
    ∃ g cells, processRows (initGrid t) [] 0 t = .ok (g, cells)
      ∧ cells = mkAllCells 0 t
      ∧ List.Pairwise (fun a b => ∀ rr cc : Int,
          cellCovers a rr cc = true → cellCovers b rr cc = false) cells
      ∧ (∀ tc ∈ cells, ∀ rr cc : Int, cellCovers tc rr cc = true →
          0 ≤ rr ∧ rr < (t.length : Int) ∧ 0 ≤ cc ∧ cc < numColsOf t)
      ∧ ((∀ row ∈ t, rowColspanSum row = numColsOf t) →
          ∀ rr cc : Int, 0 ≤ rr → rr < (t.length : Int) → 0 ≤ cc →
            cc < numColsOf t → ∃ tc ∈ cells, cellCovers tc rr cc = true) := by
  have hspans : ∀ row ∈ t, ∀ c ∈ row, 1 ≤ get_colspan c :=
    fun row hr c hc => (hv row hr c hc).2
  have hW : ((numColsOf t).toNat : Int) = numColsOf t :=
    Int.toNat_of_nonneg (numColsOf_nonneg t)
  obtain ⟨g2, hrun⟩ := processRows_spec t (initGrid t) [] 0 ((numColsOf t).toNat)
    hv (fun row hr => by rw [hW]; exact row_le_numColsOf t row hr)
    (fun k hk1 hk2 => by
      unfold initGrid at hk2 ⊢
      simp only [List.length_replicate] at hk2
      rw [List.getElem?_replicate, if_pos hk2, prefixRow_zero])
    (by unfold initGrid; simp)
  refine ⟨g2, mkAllCells 0 t, by simpa using hrun, rfl,
    mkAllCells_pairwise t 0 hspans, ?_, ?_⟩
  · intro tc htc rr cc hcov
    obtain ⟨h1, h2, h3⟩ := mkAllCells_rowinfo t 0 tc htc
    obtain ⟨h4, h5, h6⟩ := mkAllCells_colinfo (numColsOf t) t 0 hspans
      (fun row hr => row_le_numColsOf t row hr) tc htc
    simp only [cellCovers, Bool.and_eq_true, decide_eq_true_eq] at hcov
    push_cast at h1 h3
    omega
  · intro hfull rr cc hr1 hr2 hc1 hc2
    obtain ⟨tc, htc, hcov⟩ := mkAllCells_cover (numColsOf t) t 0 hspans hfull
      rr.toNat (by omega) cc hc1 hc2
    refine ⟨tc, htc, ?_⟩
    have : ((0 : Nat) : Int) + ((rr.toNat : Nat) : Int) = rr := by
      push_cast
      omega
    rw [this] at hcov
    exact hcov

/-- C1 witness: a concrete 1-row table with spans 1 and 2. -/
theorem C1_grid_amended_witness :
    (∀ row ∈ ([[⟨"a", none, none⟩, ⟨"b", none, some 2⟩]] : List (List CellIn)),
      ∀ c ∈ row, c.vMerge = none ∧ 1 ≤ get_colspan c) ∧
    (∃ g cells, processRows (initGrid [[⟨"a", none, none⟩, ⟨"b", none, some 2⟩]])
        [] 0 [[⟨"a", none, none⟩, ⟨"b", none, some 2⟩]] = .ok (g, cells)
      ∧ cells = mkAllCells 0 [[⟨"a", none, none⟩, ⟨"b", none, some 2⟩]]
      ∧ List.Pairwise (fun a b => ∀ rr cc : Int,
          cellCovers a rr cc = true → cellCovers b rr cc = false) cells
      ∧ (∀ tc ∈ cells, ∀ rr cc : Int, cellCovers tc rr cc = true →
          0 ≤ rr ∧ rr < (([[⟨"a", none, none⟩, ⟨"b", none, some 2⟩]] :
            List (List CellIn)).length : Int) ∧ 0 ≤ cc ∧
          cc < numColsOf [[⟨"a", none, none⟩, ⟨"b", none, some 2⟩]])
      ∧ ((∀ row ∈ ([[⟨"a", none, none⟩, ⟨"b", none, some 2⟩]] : List (List CellIn)),
            rowColspanSum row = numColsOf [[⟨"a", none, none⟩, ⟨"b", none, some 2⟩]]) →
          ∀ rr cc : Int, 0 ≤ rr →
            rr < (([[⟨"a", none, none⟩, ⟨"b", none, some 2⟩]] :
              List (List CellIn)).length : Int) → 0 ≤ cc →
            cc < numColsOf [[⟨"a", none, none⟩, ⟨"b", none, some 2⟩]] →
            ∃ tc ∈ cells, cellCovers tc rr cc = true)) :=
  ⟨by decide, C1_grid_amended [[⟨"a", none, none⟩, ⟨"b", none, some 2⟩]] (by decide)⟩
